import Mathlib

/-!
Shallow embedding of the CodeQuest progression engine (`GameState` class,
the full-featured revision with the enabled flag and the achievement
ledger).  JS numbers are modelled as `Nat`: every quantity the engine
stores (xp, levels, combos, timestamps, counters) is a non-negative
integer in all reachable states, and JS `Math.max(0, a - b)` coincides
with truncated `Nat` subtraction.  `Date.now()` is modelled by threading
an explicit `now : Nat` argument through each operation that reads the
clock.  Persistence (`globalState.update`) is modelled by a write
counter `persistWrites`; UI callbacks and console logging have no
engine-visible effect and are omitted.
-/

namespace CodeQuest

/-- Achievement `type` field: `'temporary' | 'permanent'`. -/
inductive AchType
  | temporary
  | permanent
deriving DecidableEq

/-- Achievement `category` field: `'level' | 'combo' | 'boss' | 'streak' | 'milestone'`. -/
inductive AchCategory
  | level
  | combo
  | boss
  | streak
  | milestone
deriving DecidableEq

/-- The `Achievement` interface. The optional `data` payload (used only by
`addXpGainAchievement`) is modelled as an optional (xpGained, source) pair. -/
structure Achievement where
  id : String
  title : String
  descr : String
  icon : String
  type : AchType
  category : AchCategory
  timestamp : Nat
  data : Option (Nat × String) := none
deriving DecidableEq

/-- The `AchievementStorage` interface. -/
structure AchievementStorage where
  temporaryAchievements : List Achievement
  permanentAchievements : List Achievement
  lastCleanup : Nat
deriving DecidableEq

/-- The `BossSubtask` interface. -/
structure BossSubtask where
  id : String
  descr : String
  completed : Bool
deriving DecidableEq

/-- The `BossBattle` interface. -/
structure BossBattle where
  name : String
  startTime : Nat
  targetLines : Nat
  currentLines : Nat
  completed : Bool
  subtasks : List BossSubtask
deriving DecidableEq

/-- The `PlayerStats` interface. -/
structure PlayerStats where
  level : Nat
  xp : Nat
  xpToNextLevel : Nat
  dailyStreak : Nat
  lastActiveDate : String
  totalLinesWritten : Nat
  combo : Nat
  maxCombo : Nat
  bossBattlesWon : Nat
  currentBossBattle : Option BossBattle := none
deriving DecidableEq

/-- `MAX_TEMPORARY_ACHIEVEMENTS = 10`. -/
def MAX_TEMPORARY_ACHIEVEMENTS : Nat := 10

/-- `MAX_RECENT_INCREMENTS = 20` (size of the rate-limit ring buffer). -/
def MAX_RECENT_INCREMENTS : Nat := 20

/-- Engine state: the `GameState` class fields that the public operations
read or write.  `recentIncrements` is the fixed-size circular buffer of
increment timestamps (`Float64Array(20)`, zero-initialised);
`persistWrites` counts `globalState.update` calls issued by
`saveStats` / `saveAchievements`. -/
structure GameState where
  enabled : Bool
  stats : PlayerStats
  achievements : AchievementStorage
  lastComboIncrement : Nat
  comboIncrementCooldown : Nat
  recentIncrements : List Nat
  recentIncrementsIndex : Nat
  lastTypingTime : Nat
  persistWrites : Nat
deriving DecidableEq

/-- Initial `PlayerStats` literal (level 1, 0 xp, 100 to next level). -/
def initialStats (today : String) : PlayerStats :=
  { level := 1
    xp := 0
    xpToNextLevel := 100
    dailyStreak := 0
    lastActiveDate := today
    totalLinesWritten := 0
    combo := 0
    maxCombo := 0
    bossBattlesWon := 0
    currentBossBattle := none }

/-- A fresh engine: defaults of every field after construction with no
previously persisted data (`enabled` defaults to `true`, cooldown 50 ms,
empty ring buffer, empty achievement storage). -/
def freshState (now : Nat) (today : String) : GameState :=
  { enabled := true
    stats := initialStats today
    achievements :=
      { temporaryAchievements := []
        permanentAchievements := []
        lastCleanup := now }
    lastComboIncrement := 0
    comboIncrementCooldown := 50
    recentIncrements := List.replicate MAX_RECENT_INCREMENTS 0
    recentIncrementsIndex := 0
    lastTypingTime := 0
    persistWrites := 0 }

/-- `saveStats()`: one persistence write (`globalState.update('codequest.stats', …)`). -/
def saveStats (s : GameState) : GameState :=
  { s with persistWrites := s.persistWrites + 1 }

/-- `saveAchievements()`: one persistence write
(`globalState.update('codequest.achievements', …)`). -/
def saveAchievements (s : GameState) : GameState :=
  { s with persistWrites := s.persistWrites + 1 }

/-- The eviction loop of `addAchievement`:
`while (temporaryAchievements.length > MAX_TEMPORARY_ACHIEVEMENTS) shift()`.
The loop removes one front element per iteration, so `l.length` iterations
always suffice; the fuel argument makes the recursion structural. -/
def evictFront : Nat → List Achievement → List Achievement
  | 0, l => l
  | fuel + 1, l =>
    if MAX_TEMPORARY_ACHIEVEMENTS < l.length then evictFront fuel l.tail else l

/-- Eviction with its sufficient fuel. -/
def evictTemps (l : List Achievement) : List Achievement :=
  evictFront l.length l

/-- `addAchievement(achievement)`: stamps `timestamp = Date.now()`; a
temporary achievement is pushed and the front evicted down to the cap; a
permanent achievement is inserted only if no stored permanent achievement
shares its `id`.  Always followed by `saveAchievements()`. -/
def addAchievement (now : Nat) (a : Achievement) (s : GameState) : GameState :=
  let full : Achievement := { a with timestamp := now }
  let s1 :=
    if a.type = AchType.temporary then
      let temps' := evictTemps (s.achievements.temporaryAchievements ++ [full])
      { s with achievements := { s.achievements with temporaryAchievements := temps' } }
    else
      if s.achievements.permanentAchievements.any (fun p => p.id = full.id) then s
      else
        let perms' := s.achievements.permanentAchievements ++ [full]
        { s with achievements := { s.achievements with permanentAchievements := perms' } }
  saveAchievements s1

/-- `addLevelUpAchievement(level)`: permanent at the milestone levels
10 / 25 / 50, otherwise a temporary level-up entry whose id embeds
`Date.now()`. -/
def addLevelUpAchievement (now : Nat) (level : Nat) (s : GameState) : GameState :=
  if level = 10 then
    addAchievement now
      { id := "level_expert_" ++ toString level
        title := "Expert Rank Achieved!"
        descr := "Reached level " ++ toString level ++ " - You are becoming a coding expert!"
        icon := "⭐"
        type := AchType.permanent
        category := AchCategory.level
        timestamp := 0 } s
  else if level = 25 then
    addAchievement now
      { id := "level_master_" ++ toString level
        title := "Master Rank Achieved!"
        descr := "Reached level " ++ toString level ++ " - Master-level skills unlocked!"
        icon := "💎"
        type := AchType.permanent
        category := AchCategory.level
        timestamp := 0 } s
  else if level = 50 then
    addAchievement now
      { id := "level_legend_" ++ toString level
        title := "Legendary Status!"
        descr := "Reached level " ++ toString level ++ " - Legendary coder status achieved!"
        icon := "👑"
        type := AchType.permanent
        category := AchCategory.level
        timestamp := 0 } s
  else
    addAchievement now
      { id := "level_up_" ++ toString now
        title := "Level " ++ toString level ++ "!"
        descr := "Welcome to level " ++ toString level ++ "!"
        icon := "🎉"
        type := AchType.temporary
        category := AchCategory.level
        timestamp := 0 } s

/-- `addXpGainAchievement(xpGained, source)`: a temporary milestone entry. -/
def addXpGainAchievement (now : Nat) (xpGained : Nat) (source : String)
    (s : GameState) : GameState :=
  addAchievement now
    { id := "xp_gain_" ++ toString now
      title := "+" ++ toString xpGained ++ " XP"
      descr := source
      icon := "✨"
      type := AchType.temporary
      category := AchCategory.milestone
      timestamp := 0
      data := some (xpGained, source) } s

/-- `addComboAchievement(combo)`: permanent at 100+ and 50+, a temporary
entry at every multiple of 10 from 20 up, nothing otherwise. -/
def addComboAchievement (now : Nat) (combo : Nat) (s : GameState) : GameState :=
  if 100 ≤ combo then
    addAchievement now
      { id := "combo_century_" ++ toString combo
        title := "Century Combo Master!"
        descr := toString combo ++ "x combo - Incredible consistency!"
        icon := "🌟"
        type := AchType.permanent
        category := AchCategory.combo
        timestamp := 0 } s
  else if 50 ≤ combo then
    addAchievement now
      { id := "combo_mega_" ++ toString combo
        title := "Mega Combo!"
        descr := toString combo ++ "x combo - You are on fire!"
        icon := "⚡"
        type := AchType.permanent
        category := AchCategory.combo
        timestamp := 0 } s
  else if combo % 10 = 0 ∧ 20 ≤ combo then
    addAchievement now
      { id := "combo_milestone_" ++ toString now
        title := toString combo ++ "x Combo!"
        descr := toString combo ++ " consecutive actions - Keep it up!"
        icon := "🔥"
        type := AchType.temporary
        category := AchCategory.combo
        timestamp := 0 } s
  else s

/-- `addBossVictoryAchievement(bossName)`: a permanent boss entry whose id
embeds `Date.now()`. -/
def addBossVictoryAchievement (now : Nat) (bossName : String)
    (s : GameState) : GameState :=
  addAchievement now
    { id := "boss_victory_" ++ toString now
      title := bossName ++ " Defeated!"
      descr := "Successfully completed the " ++ bossName ++ " challenge"
      icon := "🏆"
      type := AchType.permanent
      category := AchCategory.boss
      timestamp := 0 } s

/-- The milestone bonus XP granted by `levelUp()` at the new level:
+50 at level 10, +100 at level 25, +250 at level 50, else 0. -/
def milestoneBonus (level : Nat) : Nat :=
  if level = 10 then 50 else if level = 25 then 100 else if level = 50 then 250 else 0

/-- `levelUp()`: subtract the threshold, bump the level, grow the
threshold by `Math.floor(xpToNextLevel * 1.5)` (= `n * 3 / 2` exactly,
since stored thresholds are integers), emit the level achievement, then
add the milestone bonus XP after the subtraction. -/
def levelUp (now : Nat) (s : GameState) : GameState :=
  let st := s.stats
  let level' := st.level + 1
  let s1 := { s with stats :=
      { st with
        xp := st.xp - st.xpToNextLevel
        level := level'
        xpToNextLevel := st.xpToNextLevel * 3 / 2 } }
  let s2 := addLevelUpAchievement now level' s1
  { s2 with stats := { s2.stats with xp := s2.stats.xp + milestoneBonus level' } }

/-- The `while (xp >= xpToNextLevel) levelUp()` loop of `addXP`, made
structural with a fuel argument.  `settleFuel` below always supplies
enough fuel (proved in `settleLevels_settles`). -/
def settleLevels : Nat → Nat → GameState → GameState
  | 0, _, s => s
  | fuel + 1, now, s =>
    if s.stats.xpToNextLevel ≤ s.stats.xp then
      settleLevels fuel now (levelUp now s)
    else s

/-- Number of level-ups the settle loop performs (one per threshold
crossing). -/
def settleCount : Nat → Nat → GameState → Nat
  | 0, _, _ => 0
  | fuel + 1, now, s =>
    if s.stats.xpToNextLevel ≤ s.stats.xp then
      settleCount fuel now (levelUp now s) + 1
    else 0

/-- Fuel that always suffices for the settle loop: current xp plus the
400 = 50 + 100 + 250 total milestone bonus still obtainable, plus one. -/
def settleFuel (s : GameState) : Nat :=
  s.stats.xp + 401

/-- `addXP(amount, reason)`: no-op when disabled; adds the amount, emits
an XP-gain achievement for amounts ≥ 10, settles level-ups, persists. -/
def addXP (now : Nat) (amount : Nat) (reason : String) (s : GameState) : GameState :=
  if s.enabled then
    let s1 := { s with stats := { s.stats with xp := s.stats.xp + amount } }
    let s2 := if 10 ≤ amount then addXpGainAchievement now amount reason s1 else s1
    saveStats (settleLevels (settleFuel s2) now s2)
  else s

/-- The valid-entry count of the rate-limit ring buffer: the number of
non-zero timestamps (`if (recentIncrements[i] > 0) validIncrements++`). -/
def countValid (buf : List Nat) : Nat :=
  buf.foldl (fun acc x => if 0 < x then acc + 1 else acc) 0

/-- The oldest non-zero timestamp in the ring buffer, starting from `now`
(`let oldestTime = now; … if (recentIncrements[i] < oldestTime) …`). -/
def oldestTime (now : Nat) (buf : List Nat) : Nat :=
  buf.foldl (fun acc x => if 0 < x ∧ x < acc then x else acc) now

/-- `incrementCombo()`: no-op when disabled; rejected with no state
change inside the cooldown window; otherwise records the timestamp in
the circular buffer, adapts the cooldown when ≥ 10 valid timestamps span
under 2 s (bulk-paste detection), bumps `combo`/`maxCombo`, emits combo
milestone achievements, grants the every-5th combo XP bonus, persists. -/
def incrementCombo (now : Nat) (s : GameState) : GameState :=
  if s.enabled then
    if now - s.lastComboIncrement < s.comboIncrementCooldown then s
    else
      let buf := s.recentIncrements.set s.recentIncrementsIndex now
      let idx' := (s.recentIncrementsIndex + 1) % MAX_RECENT_INCREMENTS
      let cooldown' :=
        if 10 ≤ countValid buf then
          if now - oldestTime now buf < 2000 then 200 else 50
        else s.comboIncrementCooldown
      let combo' := s.stats.combo + 1
      let maxCombo' := if s.stats.maxCombo < combo' then combo' else s.stats.maxCombo
      let s1 := { s with
        recentIncrements := buf
        recentIncrementsIndex := idx'
        comboIncrementCooldown := cooldown'
        lastComboIncrement := now
        lastTypingTime := now
        stats := { s.stats with combo := combo', maxCombo := maxCombo' } }
      let s2 := addComboAchievement now combo' s1
      let s3 :=
        if combo' % 5 = 0 ∧ 5 ≤ combo' then
          addXP now combo' ("(" ++ toString combo' ++ "x combo bonus!)") s2
        else s2
      saveStats s3
  else s

/-- `breakCombo()`: sets `combo = 0` and persists.  There is no
enabled-flag guard on this method. -/
def breakCombo (s : GameState) : GameState :=
  saveStats { s with stats := { s.stats with combo := 0 } }

/-- One firing of the combo-decay interval callback: skipped when the
engine is disabled; when the user has not typed for over 3 s and combo
is positive, decrements combo by one (`Math.max(0, combo - 1)`) and
persists. -/
def decayTick (now : Nat) (s : GameState) : GameState :=
  if s.enabled then
    if 0 < s.lastTypingTime ∧ 3000 < now - s.lastTypingTime then
      if 0 < s.stats.combo then
        saveStats { s with stats := { s.stats with combo := s.stats.combo - 1 } }
      else s
    else s
  else s

/-- `updateDailyActivity()`, with the calendar abstracted to the two date
strings the source computes from the clock. -/
def updateDailyActivity (today yesterday : String) (s : GameState) : GameState :=
  if s.stats.lastActiveDate ≠ today then
    let streak' := if s.stats.lastActiveDate = yesterday then s.stats.dailyStreak + 1 else 1
    { s with stats := { s.stats with dailyStreak := streak', lastActiveDate := today } }
  else s

/-- The boss-progress update inside `addLinesWritten`: adds to
`currentLines` while a battle is active and not completed. -/
def bumpBossLines (lines : Nat) (s : GameState) : GameState :=
  match s.stats.currentBossBattle with
  | none => s
  | some b =>
    if b.completed then s
    else
      let b' := { b with currentLines := b.currentLines + lines }
      { s with stats := { s.stats with currentBossBattle := some b' } }

/-- `addLinesWritten(lines)`: no-op when disabled; adds the line count,
awards `lines * 2` XP, increments the combo, updates the daily streak,
advances boss progress, persists. -/
def addLinesWritten (now : Nat) (today yesterday : String) (lines : Nat)
    (s : GameState) : GameState :=
  if s.enabled then
    let s1 := { s with stats :=
        { s.stats with totalLinesWritten := s.stats.totalLinesWritten + lines } }
    let s2 := addXP now (lines * 2) ("(" ++ toString lines ++ " lines written)") s1
    let s3 := incrementCombo now s2
    let s4 := updateDailyActivity today yesterday s3
    saveStats (bumpBossLines lines s4)
  else s

/-- `detectCopyPaste(lines)`: no-op when disabled; awards the halved
paste rate `Math.floor(lines * 0.5)` XP, then breaks the combo. -/
def detectCopyPaste (now : Nat) (lines : Nat) (s : GameState) : GameState :=
  if s.enabled then
    breakCombo (addXP now (lines / 2) "(summoned help)" s)
  else s

/-- The subtask list built by `startBossBattle`: one `BossSubtask` per
description, ids `subtask_0, subtask_1, …` in order, all incomplete. -/
def mkSubtasks : Nat → List String → List BossSubtask
  | _, [] => []
  | i, d :: ds =>
    { id := "subtask_" ++ toString i, descr := d, completed := false } :: mkSubtasks (i + 1) ds

/-- `startBossBattle(name, subtaskDescriptions)`: `rand` models the draw
`Math.floor(Math.random() * 100)` (a value in 0…99).  The method has no
enabled-flag guard and no active-battle guard: it unconditionally
installs the new battle and persists. -/
def startBossBattle (now rand : Nat) (name : String) (descs : List String)
    (s : GameState) : GameState :=
  let battle : BossBattle :=
    { name := name
      startTime := now
      targetLines := max 20 (rand + 20)
      currentLines := 0
      completed := false
      subtasks := mkSubtasks 0 descs }
  saveStats { s with stats := { s.stats with currentBossBattle := some battle } }

/-- The in-place flip of `subtask.completed` for the first subtask
matching the id (`subtasks.find(st => st.id === subtaskId)`). -/
def toggleFirst (sid : String) : List BossSubtask → List BossSubtask
  | [] => []
  | st :: rest =>
    if st.id = sid then { st with completed := !st.completed } :: rest
    else st :: toggleFirst sid rest

/-- `toggleSubtask(subtaskId)`: flips the named subtask of an active,
not-yet-completed battle and persists; otherwise (no battle, completed
battle, or unknown id) a no-op. -/
def toggleSubtask (sid : String) (s : GameState) : GameState :=
  match s.stats.currentBossBattle with
  | none => s
  | some b =>
    if b.completed then s
    else
      if b.subtasks.any (fun st => st.id = sid) then
        let b' := { b with subtasks := toggleFirst sid b.subtasks }
        saveStats { s with stats := { s.stats with currentBossBattle := some b' } }
      else s

/-- `canCompleteBossBattle()`: a battle is active, not completed, and
every subtask is completed. -/
def canCompleteBossBattle (s : GameState) : Bool :=
  match s.stats.currentBossBattle with
  | none => false
  | some b => if b.completed then false else b.subtasks.all (fun st => st.completed)

/-- The completion time bonus:
`Math.max(0, 1000 - Math.floor((now - startTime) / 60000) * 10)`
(truncated `Nat` subtraction coincides with the JS clamp to 0). -/
def bossTimeBonus (now startTime : Nat) : Nat :=
  max 0 (1000 - (now - startTime) / 60000 * 10)

/-- `completeBossBattle()`: with an active, not-completed battle —
rejected (warning only, no state change) unless every subtask is
completed; on success marks the battle completed, increments
`bossBattlesWon`, awards `100 + timeBonus` XP, emits the permanent boss
victory achievement, clears the battle, persists. -/
def completeBossBattle (now : Nat) (s : GameState) : GameState :=
  match s.stats.currentBossBattle with
  | none => s
  | some b =>
    if b.completed then s
    else
      if b.subtasks.all (fun st => st.completed) then
        let b' := { b with completed := true }
        let s1 := { s with stats :=
            { s.stats with currentBossBattle := some b'
                           bossBattlesWon := s.stats.bossBattlesWon + 1 } }
        let s2 := addXP now (100 + bossTimeBonus now b.startTime)
            ("(Boss Battle: " ++ b.name ++ ")") s1
        let s3 := addBossVictoryAchievement now b.name s2
        saveStats { s3 with stats := { s3.stats with currentBossBattle := none } }
      else s

/-- `killBossBattle()`: clears the active battle (if any) and persists;
otherwise only shows a message. -/
def killBossBattle (s : GameState) : GameState :=
  match s.stats.currentBossBattle with
  | none => s
  | some _ => saveStats { s with stats := { s.stats with currentBossBattle := none } }

/-! ### Basic preservation lemmas -/

theorem addAchievement_stats (now : Nat) (a : Achievement) (s : GameState) :
    (addAchievement now a s).stats = s.stats := by
  simp only [addAchievement, saveAchievements]
  split_ifs <;> rfl

theorem addAchievement_enabled (now : Nat) (a : Achievement) (s : GameState) :
    (addAchievement now a s).enabled = s.enabled := by
  simp only [addAchievement, saveAchievements]
  split_ifs <;> rfl

theorem addLevelUpAchievement_stats (now level : Nat) (s : GameState) :
    (addLevelUpAchievement now level s).stats = s.stats := by
  unfold addLevelUpAchievement
  split_ifs <;> apply addAchievement_stats

theorem addLevelUpAchievement_enabled (now level : Nat) (s : GameState) :
    (addLevelUpAchievement now level s).enabled = s.enabled := by
  unfold addLevelUpAchievement
  split_ifs <;> apply addAchievement_enabled

theorem addXpGainAchievement_stats (now x : Nat) (src : String) (s : GameState) :
    (addXpGainAchievement now x src s).stats = s.stats :=
  addAchievement_stats ..

theorem addXpGainAchievement_enabled (now x : Nat) (src : String) (s : GameState) :
    (addXpGainAchievement now x src s).enabled = s.enabled :=
  addAchievement_enabled ..

theorem addComboAchievement_stats (now c : Nat) (s : GameState) :
    (addComboAchievement now c s).stats = s.stats := by
  unfold addComboAchievement
  split_ifs <;> first
    | apply addAchievement_stats
    | rfl

theorem addComboAchievement_enabled (now c : Nat) (s : GameState) :
    (addComboAchievement now c s).enabled = s.enabled := by
  unfold addComboAchievement
  split_ifs <;> first
    | apply addAchievement_enabled
    | rfl

theorem addBossVictoryAchievement_stats (now : Nat) (n : String) (s : GameState) :
    (addBossVictoryAchievement now n s).stats = s.stats :=
  addAchievement_stats ..

/-! ### Level-up arithmetic -/

theorem levelUp_level (now : Nat) (s : GameState) :
    (levelUp now s).stats.level = s.stats.level + 1 := by
  unfold levelUp
  simp [addLevelUpAchievement_stats]

theorem levelUp_xp (now : Nat) (s : GameState) :
    (levelUp now s).stats.xp =
      s.stats.xp - s.stats.xpToNextLevel + milestoneBonus (s.stats.level + 1) := by
  unfold levelUp
  simp [addLevelUpAchievement_stats]

theorem levelUp_xpToNextLevel (now : Nat) (s : GameState) :
    (levelUp now s).stats.xpToNextLevel = s.stats.xpToNextLevel * 3 / 2 := by
  unfold levelUp
  simp [addLevelUpAchievement_stats]

theorem levelUp_combo (now : Nat) (s : GameState) :
    (levelUp now s).stats.combo = s.stats.combo := by
  unfold levelUp
  simp [addLevelUpAchievement_stats]

theorem levelUp_maxCombo (now : Nat) (s : GameState) :
    (levelUp now s).stats.maxCombo = s.stats.maxCombo := by
  unfold levelUp
  simp [addLevelUpAchievement_stats]

theorem levelUp_enabled (now : Nat) (s : GameState) :
    (levelUp now s).enabled = s.enabled := by
  unfold levelUp
  simp [addLevelUpAchievement_enabled]

/-- Milestone bonus XP that can still be collected above the given
level; this bounds how much XP future level-ups can inject. -/
def remBonus (level : Nat) : Nat :=
  (if level < 10 then 50 else 0) + (if level < 25 then 100 else 0) +
    (if level < 50 then 250 else 0)

theorem remBonus_le (level : Nat) : remBonus level ≤ 400 := by
  unfold remBonus
  split_ifs <;> omega

theorem remBonus_succ (level : Nat) :
    remBonus level = milestoneBonus (level + 1) + remBonus (level + 1) := by
  unfold remBonus milestoneBonus
  split_ifs <;> omega

theorem next_grow_pos (n : Nat) (h : 1 ≤ n) : 1 ≤ n * 3 / 2 := by
  rw [Nat.le_div_iff_mul_le (by norm_num)]
  omega

/-- Core settling fact: with positive threshold and enough fuel, the
level-up loop ends with `xp < xpToNextLevel`. -/
theorem settleLevels_settles (fuel : Nat) :
    ∀ now s, 1 ≤ s.stats.xpToNextLevel →
      s.stats.xp + remBonus s.stats.level ≤ fuel →
      (settleLevels fuel now s).stats.xp < (settleLevels fuel now s).stats.xpToNextLevel := by
  induction fuel with
  | zero =>
    intro now s hpos hfuel
    simp only [settleLevels]
    omega
  | succ fuel ih =>
    intro now s hpos hfuel
    simp only [settleLevels]
    by_cases hc : s.stats.xpToNextLevel ≤ s.stats.xp
    · rw [if_pos hc]
      apply ih
      · rw [levelUp_xpToNextLevel]
        exact next_grow_pos _ hpos
      · rw [levelUp_xp, levelUp_level]
        have hb := remBonus_succ s.stats.level
        omega
    · rw [if_neg hc]
      omega

/-- The settle loop leaves the level field increased by exactly the
number of iterations it performed. -/
theorem settleLevels_level (fuel : Nat) :
    ∀ now s, (settleLevels fuel now s).stats.level =
      s.stats.level + settleCount fuel now s := by
  induction fuel with
  | zero => intro now s; simp [settleLevels, settleCount]
  | succ fuel ih =>
    intro now s
    simp only [settleLevels, settleCount]
    by_cases hc : s.stats.xpToNextLevel ≤ s.stats.xp
    · rw [if_pos hc, if_pos hc, ih, levelUp_level]
      omega
    · rw [if_neg hc, if_neg hc]
      omega

/-- The settle loop does nothing when the threshold is not reached. -/
theorem settleLevels_id (fuel now : Nat) (s : GameState)
    (h : s.stats.xp < s.stats.xpToNextLevel) : settleLevels fuel now s = s := by
  cases fuel with
  | zero => rfl
  | succ fuel => simp only [settleLevels]; rw [if_neg (by omega)]

theorem settleLevels_combo (fuel : Nat) :
    ∀ now s, (settleLevels fuel now s).stats.combo = s.stats.combo := by
  induction fuel with
  | zero => intro now s; rfl
  | succ fuel ih =>
    intro now s
    simp only [settleLevels]
    by_cases hc : s.stats.xpToNextLevel ≤ s.stats.xp
    · rw [if_pos hc, ih, levelUp_combo]
    · rw [if_neg hc]

theorem settleLevels_maxCombo (fuel : Nat) :
    ∀ now s, (settleLevels fuel now s).stats.maxCombo = s.stats.maxCombo := by
  induction fuel with
  | zero => intro now s; rfl
  | succ fuel ih =>
    intro now s
    simp only [settleLevels]
    by_cases hc : s.stats.xpToNextLevel ≤ s.stats.xp
    · rw [if_pos hc, ih, levelUp_maxCombo]
    · rw [if_neg hc]

theorem settleLevels_enabled (fuel : Nat) :
    ∀ now s, (settleLevels fuel now s).enabled = s.enabled := by
  induction fuel with
  | zero => intro now s; rfl
  | succ fuel ih =>
    intro now s
    simp only [settleLevels]
    by_cases hc : s.stats.xpToNextLevel ≤ s.stats.xp
    · rw [if_pos hc, ih, levelUp_enabled]
    · rw [if_neg hc]

end CodeQuest

namespace CodeQuest

theorem saveStats_stats (s : GameState) : (saveStats s).stats = s.stats := rfl

theorem saveStats_enabled (s : GameState) : (saveStats s).enabled = s.enabled := rfl

/-- The settle loop run with its standard fuel always settles. -/
theorem settleLevels_settleFuel (now : Nat) (s : GameState)
    (hpos : 1 ≤ s.stats.xpToNextLevel) :
    (settleLevels (settleFuel s) now s).stats.xp <
      (settleLevels (settleFuel s) now s).stats.xpToNextLevel := by
  apply settleLevels_settles _ _ _ hpos
  have := remBonus_le s.stats.level
  simp only [settleFuel]
  omega

/-- After `addXP` on an enabled engine with a positive threshold, the
level-up loop has settled: `xp < xpToNextLevel`. -/
theorem addXP_settled (now amount : Nat) (reason : String) (s : GameState)
    (he : s.enabled = true) (hpos : 1 ≤ s.stats.xpToNextLevel) :
    (addXP now amount reason s).stats.xp <
      (addXP now amount reason s).stats.xpToNextLevel := by
  simp only [addXP, he, if_true]
  split_ifs with h10
  · rw [saveStats_stats]
    apply settleLevels_settleFuel
    rw [addXpGainAchievement_stats]
    exact hpos
  · rw [saveStats_stats]
    apply settleLevels_settleFuel
    exact hpos

theorem addXP_combo (now amount : Nat) (reason : String) (s : GameState) :
    (addXP now amount reason s).stats.combo = s.stats.combo := by
  unfold addXP
  split_ifs with he h10 <;>
    simp [saveStats_stats, settleLevels_combo, addXpGainAchievement_stats]

theorem addXP_maxCombo (now amount : Nat) (reason : String) (s : GameState) :
    (addXP now amount reason s).stats.maxCombo = s.stats.maxCombo := by
  unfold addXP
  split_ifs with he h10 <;>
    simp [saveStats_stats, settleLevels_maxCombo, addXpGainAchievement_stats]

theorem addXP_enabled (now amount : Nat) (reason : String) (s : GameState) :
    (addXP now amount reason s).enabled = s.enabled := by
  unfold addXP
  split_ifs with he h10 <;>
    simp [saveStats_enabled, settleLevels_enabled, addXpGainAchievement_enabled]

end CodeQuest

namespace CodeQuest

/-- Example state for the claim scenario: level 1, xp 90, threshold 100. -/
def exampleXp90 : GameState :=
  { freshState 0 "day" with stats := { initialStats "day" with xp := 90 } }

/-- Example state showing a milestone bonus cascading into a further
level-up: level 49, xp 99, threshold 100; adding 1 XP crosses into level
50, the +250 bonus re-triggers the loop, and the call ends at level 51. -/
def exampleCascade : GameState :=
  { freshState 0 "day" with stats :=
      { initialStats "day" with level := 49, xp := 99, xpToNextLevel := 100 } }

/-- C1: after every `addXP` call on an enabled engine (with the always
positive threshold), the state settles with `xp < xpToNextLevel` (xp is
a `Nat`, so `0 ≤ xp` holds by type); each single level-up performs
`xp -= xpToNextLevel; level += 1; xpToNextLevel = floor(xpToNextLevel * 1.5)`
with the milestone bonus (+50 at level 10, +100 at 25, +250 at 50) added
after the threshold subtraction; the settle loop raises `level` exactly
once per iteration, i.e. once per threshold crossed, and re-checks the
threshold after every level-up so a bonus can cascade (level-49 example);
the claim's own example: from level 1, xp 90, threshold 100, `addXP(130)`
ends at level 2, xp 120, threshold 150. -/
theorem claim_C1_addXP_level_conservation :
    (∀ (now amount : Nat) (reason : String) (s : GameState),
        s.enabled = true → 1 ≤ s.stats.xpToNextLevel →
        (addXP now amount reason s).stats.xp <
          (addXP now amount reason s).stats.xpToNextLevel)
    ∧ (∀ (now : Nat) (s : GameState),
        (levelUp now s).stats.xp
            = s.stats.xp - s.stats.xpToNextLevel + milestoneBonus (s.stats.level + 1)
          ∧ (levelUp now s).stats.level = s.stats.level + 1
          ∧ (levelUp now s).stats.xpToNextLevel = s.stats.xpToNextLevel * 3 / 2)
    ∧ (∀ (fuel now : Nat) (s : GameState),
        (settleLevels fuel now s).stats.level = s.stats.level + settleCount fuel now s)
    ∧ ((addXP 1 130 "" exampleXp90).stats.level = 2
        ∧ (addXP 1 130 "" exampleXp90).stats.xp = 120
        ∧ (addXP 1 130 "" exampleXp90).stats.xpToNextLevel = 150)
    ∧ ((addXP 1 1 "" exampleCascade).stats.level = 51
        ∧ (addXP 1 1 "" exampleCascade).stats.xp = 100
        ∧ (addXP 1 1 "" exampleCascade).stats.xpToNextLevel = 225) :=
  ⟨addXP_settled,
   fun now s => ⟨levelUp_xp now s, levelUp_level now s, levelUp_xpToNextLevel now s⟩,
   fun fuel now s => settleLevels_level fuel now s,
   ⟨by decide, by decide, by decide⟩,
   ⟨by decide, by decide, by decide⟩⟩

/-- Witness for C1: the settling invariant applied to a concrete enabled
fresh state with both hypotheses discharged. -/
theorem claim_C1_addXP_level_conservation_witness :
    ((freshState 0 "day").enabled = true ∧ 1 ≤ (freshState 0 "day").stats.xpToNextLevel)
    ∧ (addXP 7 130 "w" (freshState 0 "day")).stats.xp
        < (addXP 7 130 "w" (freshState 0 "day")).stats.xpToNextLevel :=
  ⟨⟨rfl, by decide⟩,
   claim_C1_addXP_level_conservation.1 7 130 "w" (freshState 0 "day") rfl (by decide)⟩

end CodeQuest

namespace CodeQuest

/-- A disabled engine with a live combo, for the C2 counterexample. -/
def disabledState : GameState :=
  { freshState 0 "day" with
    enabled := false
    stats := { initialStats "day" with combo := 3, maxCombo := 3 } }

/-- C2 counterexample: on a disabled engine, `breakCombo` still zeroes
the combo and still persists, and `startBossBattle` still installs a
battle — they are not no-ops, contradicting the claim that every
mutating operation is suppressed while disabled. -/
theorem claim_C2_counterexample :
    disabledState.enabled = false
    ∧ disabledState.stats.combo = 3
    ∧ (breakCombo disabledState).stats.combo = 0
    ∧ (breakCombo disabledState).persistWrites = disabledState.persistWrites + 1
    ∧ (startBossBattle 5 0 "B" [] disabledState).stats.currentBossBattle
        ≠ disabledState.stats.currentBossBattle := by
  refine ⟨rfl, rfl, rfl, rfl, ?_⟩
  decide

/-- C2 (amended): on a disabled engine, the guarded operations `addXP`,
`incrementCombo`, `addLinesWritten`, `detectCopyPaste` and the
combo-decay tick are exact no-ops — no state change and no persistence
write (the returned state is the input state, `persistWrites`
included).  The remaining mutating methods (`breakCombo`,
`startBossBattle`, `completeBossBattle`, `killBossBattle`,
`toggleSubtask`) carry no disabled-flag guard (counterexample above). -/
theorem claim_C2_disabled_noop (s : GameState) (hd : s.enabled = false) :
    (∀ now amount reason, addXP now amount reason s = s)
    ∧ (∀ now, incrementCombo now s = s)
    ∧ (∀ now today yesterday lines, addLinesWritten now today yesterday lines s = s)
    ∧ (∀ now lines, detectCopyPaste now lines s = s)
    ∧ (∀ now, decayTick now s = s) := by
  refine ⟨?_, ?_, ?_, ?_, ?_⟩ <;> intros <;>
    simp [addXP, incrementCombo, addLinesWritten, detectCopyPaste, decayTick, hd]

/-- Witness for C2 (amended) at a concrete disabled state. -/
theorem claim_C2_disabled_noop_witness :
    disabledState.enabled = false
    ∧ addXP 3 5 "w" disabledState = disabledState
    ∧ incrementCombo 400 disabledState = disabledState :=
  ⟨rfl, (claim_C2_disabled_noop disabledState rfl).1 3 5 "w",
    (claim_C2_disabled_noop disabledState rfl).2.1 400⟩

/-- A state with an active (not completed) boss battle, for C3. -/
def activeBattleState : GameState :=
  startBossBattle 100 0 "Old Boss" ["t1"] (freshState 0 "day")

/-- C3 counterexample: with a battle already active (and not completed),
`startBossBattle` does not leave the existing battle in place — it
replaces it with the new battle. -/
theorem claim_C3_counterexample :
    (activeBattleState.stats.currentBossBattle.map (fun b => b.completed)) = some false
    ∧ (startBossBattle 200 0 "New Boss" [] activeBattleState).stats.currentBossBattle
        ≠ activeBattleState.stats.currentBossBattle := by
  refine ⟨rfl, ?_⟩
  decide

/-- C3 (amended): `startBossBattle` has no active-battle guard — for
every state, including one whose battle is active, the call
unconditionally installs the freshly built battle (and persists). -/
theorem claim_C3_start_overwrites (now rand : Nat) (name : String)
    (descs : List String) (s : GameState) :
    (startBossBattle now rand name descs s).stats.currentBossBattle
      = some { name := name
               startTime := now
               targetLines := max 20 (rand + 20)
               currentLines := 0
               completed := false
               subtasks := mkSubtasks 0 descs }
    ∧ (startBossBattle now rand name descs s).persistWrites = s.persistWrites + 1 :=
  ⟨rfl, rfl⟩

theorem mkSubtasks_map_descr : ∀ (i : Nat) (descs : List String),
    (mkSubtasks i descs).map (fun st => st.descr) = descs := by
  intro i descs
  induction descs generalizing i with
  | nil => rfl
  | cons d ds ih => simp [mkSubtasks, ih]

theorem mkSubtasks_incomplete : ∀ (i : Nat) (descs : List String),
    ∀ st ∈ mkSubtasks i descs, st.completed = false := by
  intro i descs
  induction descs generalizing i with
  | nil => intro st h; cases h
  | cons d ds ih =>
    intro st h
    simp only [mkSubtasks, List.mem_cons] at h
    rcases h with h | h
    · subst h; rfl
    · exact ih _ _ h

/-- C5 counterexample: starting a battle with an empty subtask list does
not create a default catch-all subtask — the battle has zero subtasks
and is immediately completable, although no subtask was ever completed. -/
theorem claim_C5_counterexample :
    ((startBossBattle 100 0 "X" [] (freshState 0 "day")).stats.currentBossBattle.map
        (fun b => b.subtasks)) = some []
    ∧ canCompleteBossBattle (startBossBattle 100 0 "X" [] (freshState 0 "day")) = true := by
  exact ⟨rfl, rfl⟩

/-- C5 (amended): a non-empty description list yields exactly one
subtask per description, in order, each initially incomplete (this part
of the claim holds); an empty (or omitted) list yields a battle with
zero subtasks — not a default catch-all — and such a battle is
immediately completable. -/
theorem claim_C5_subtask_creation :
    (∀ (now rand : Nat) (name : String) (descs : List String) (s : GameState),
        ((startBossBattle now rand name descs s).stats.currentBossBattle.map
            (fun b => b.subtasks.map (fun st => st.descr))) = some descs)
    ∧ (∀ (now rand : Nat) (name : String) (descs : List String) (s : GameState) b,
        (startBossBattle now rand name descs s).stats.currentBossBattle = some b →
        ∀ st ∈ b.subtasks, st.completed = false)
    ∧ (∀ (now rand : Nat) (name : String) (s : GameState),
        ((startBossBattle now rand name [] s).stats.currentBossBattle.map
            (fun b => b.subtasks)) = some []
        ∧ canCompleteBossBattle (startBossBattle now rand name [] s) = true) := by
  refine ⟨?_, ?_, ?_⟩
  · intro now rand name descs s
    simp [startBossBattle, saveStats, mkSubtasks_map_descr]
  · intro now rand name descs s b hb st hst
    have : b.subtasks = mkSubtasks 0 descs := by
      have := (claim_C3_start_overwrites now rand name descs s).1
      rw [hb] at this
      cases this
      rfl
    rw [this] at hst
    exact mkSubtasks_incomplete 0 descs st hst
  · intro now rand name s
    exact ⟨rfl, rfl⟩

/-- Witness for C5 (amended) at concrete inputs. -/
theorem claim_C5_subtask_creation_witness :
    (startBossBattle 9 1 "W" ["a"] (freshState 0 "day")).stats.currentBossBattle
        = some ({ name := "W", startTime := 9, targetLines := 21, currentLines := 0,
                  completed := false,
                  subtasks := [{ id := "subtask_0", descr := "a", completed := false }] } :
            BossBattle)
    ∧ ∀ st ∈ [({ id := "subtask_0", descr := "a", completed := false } : BossSubtask)],
        st.completed = false := by
  refine ⟨by decide, ?_⟩
  exact claim_C5_subtask_creation.2.1 9 1 "W" ["a"] (freshState 0 "day") _ rfl

end CodeQuest

namespace CodeQuest

theorem breakCombo_stats_combo (s : GameState) : (breakCombo s).stats.combo = 0 := rfl

theorem breakCombo_stats_maxCombo (s : GameState) :
    (breakCombo s).stats.maxCombo = s.stats.maxCombo := rfl

/-- `addAchievement` with a temporary achievement leaves the permanent
collection untouched. -/
theorem addAchievement_perms_of_temporary (now : Nat) (a : Achievement) (s : GameState)
    (h : a.type = AchType.temporary) :
    (addAchievement now a s).achievements.permanentAchievements
      = s.achievements.permanentAchievements := by
  simp [addAchievement, saveAchievements, h]

/-- When the added amount does not reach the threshold, `addXP` only
adds to `xp` (plus the possible temporary XP-gain achievement and the
persistence write): the settle loop runs zero times. -/
theorem addXP_no_levelup (now amount : Nat) (reason : String) (s : GameState)
    (he : s.enabled = true) (hlt : s.stats.xp + amount < s.stats.xpToNextLevel) :
    (addXP now amount reason s).stats = { s.stats with xp := s.stats.xp + amount }
    ∧ (addXP now amount reason s).achievements.permanentAchievements
        = s.achievements.permanentAchievements := by
  simp only [addXP, he, if_true]
  split_ifs with h10
  · rw [settleLevels_id]
    · constructor
      · rw [saveStats_stats, addXpGainAchievement_stats]
      · show (addXpGainAchievement now amount reason _).achievements.permanentAchievements
            = s.achievements.permanentAchievements
        exact addAchievement_perms_of_temporary _ _ _ rfl
    · rw [addXpGainAchievement_stats]
      exact hlt
  · rw [settleLevels_id]
    · exact ⟨rfl, rfl⟩
    · exact hlt

/-- C10: on an enabled engine, `detectCopyPaste(lines)` awards exactly
`floor(lines * 0.5)` XP (the halved paste rate; typed lines earn
`lines * 2` through `addLinesWritten`) and then unconditionally breaks
the combo: afterwards `combo = 0` and `maxCombo` is unchanged.  The
exact-award conjunct is stated on calls that stay below the level
threshold, where the xp field records the award directly. -/
theorem claim_C10_detectCopyPaste (now lines : Nat) (s : GameState)
    (he : s.enabled = true) :
    (detectCopyPaste now lines s).stats.combo = 0
    ∧ (detectCopyPaste now lines s).stats.maxCombo = s.stats.maxCombo
    ∧ (s.stats.xp + lines / 2 < s.stats.xpToNextLevel →
        (detectCopyPaste now lines s).stats.xp = s.stats.xp + lines / 2
        ∧ (detectCopyPaste now lines s).stats.level = s.stats.level) := by
  simp only [detectCopyPaste, he, if_true]
  refine ⟨rfl, ?_, ?_⟩
  · rw [breakCombo_stats_maxCombo, addXP_maxCombo]
  · intro hlt
    have h := (addXP_no_levelup now (lines / 2) "(summoned help)" s he hlt).1
    constructor
    · show (addXP now (lines / 2) "(summoned help)" s).stats.xp = _
      rw [h]
    · show (addXP now (lines / 2) "(summoned help)" s).stats.level = _
      rw [h]

/-- Witness for C10 at a concrete enabled state. -/
theorem claim_C10_detectCopyPaste_witness :
    (freshState 0 "day").enabled = true
    ∧ (0 : Nat) + 9 / 2 < 100
    ∧ (detectCopyPaste 3 9 (freshState 0 "day")).stats.combo = 0
    ∧ (detectCopyPaste 3 9 (freshState 0 "day")).stats.maxCombo
        = (freshState 0 "day").stats.maxCombo :=
  ⟨rfl, by decide, (claim_C10_detectCopyPaste 3 9 (freshState 0 "day") rfl).1,
    (claim_C10_detectCopyPaste 3 9 (freshState 0 "day") rfl).2.1⟩

end CodeQuest

namespace CodeQuest

/-- The three combo-affecting events of the engine: an accepted-or-
rejected `incrementCombo` call, an explicit `breakCombo`, and one firing
of the decay interval. -/
inductive ComboEvent where
  | increment (now : Nat)
  | breakEv
  | decay (now : Nat)

/-- Apply one combo event. -/
def comboStep : ComboEvent → GameState → GameState
  | ComboEvent.increment now, s => incrementCombo now s
  | ComboEvent.breakEv, s => breakCombo s
  | ComboEvent.decay now, s => decayTick now s

/-- Run a sequence of combo events. -/
def runCombo (events : List ComboEvent) (s : GameState) : GameState :=
  events.foldl (fun st e => comboStep e st) s

/-- One `incrementCombo` call preserves `combo ≤ maxCombo` and never
lowers `maxCombo`. -/
theorem incrementCombo_invariant (now : Nat) (s : GameState)
    (h : s.stats.combo ≤ s.stats.maxCombo) :
    (incrementCombo now s).stats.combo ≤ (incrementCombo now s).stats.maxCombo
    ∧ s.stats.maxCombo ≤ (incrementCombo now s).stats.maxCombo := by
  unfold incrementCombo
  split_ifs with he hcool
  · exact ⟨h, Nat.le_refl _⟩
  · constructor <;>
      · simp only [saveStats_stats]
        split_ifs with hb <;>
          simp [addXP_combo, addXP_maxCombo, addComboAchievement_stats] <;>
          omega
  · exact ⟨h, Nat.le_refl _⟩

theorem decayTick_invariant (now : Nat) (s : GameState)
    (h : s.stats.combo ≤ s.stats.maxCombo) :
    (decayTick now s).stats.combo ≤ (decayTick now s).stats.maxCombo
    ∧ s.stats.maxCombo ≤ (decayTick now s).stats.maxCombo := by
  unfold decayTick
  split_ifs <;> simp [saveStats_stats] <;> omega

/-- C7: over every sequence of `incrementCombo` / `breakCombo` /
decay-tick events, `maxCombo` is non-decreasing and `maxCombo ≥ combo`
is preserved; `breakCombo` zeroes `combo` unconditionally and leaves
`maxCombo` unchanged. -/
theorem claim_C7_maxCombo_monotone :
    (∀ (events : List ComboEvent) (s : GameState),
        s.stats.combo ≤ s.stats.maxCombo →
        (runCombo events s).stats.combo ≤ (runCombo events s).stats.maxCombo
        ∧ s.stats.maxCombo ≤ (runCombo events s).stats.maxCombo)
    ∧ (∀ s : GameState,
        (breakCombo s).stats.combo = 0
        ∧ (breakCombo s).stats.maxCombo = s.stats.maxCombo) := by
  constructor
  · intro events
    induction events with
    | nil => intro s h; exact ⟨h, Nat.le_refl _⟩
    | cons e rest ih =>
      intro s h
      have hstep : (comboStep e s).stats.combo ≤ (comboStep e s).stats.maxCombo
          ∧ s.stats.maxCombo ≤ (comboStep e s).stats.maxCombo := by
        cases e with
        | increment now => exact incrementCombo_invariant now s h
        | breakEv => exact ⟨Nat.zero_le _, Nat.le_refl _⟩
        | decay now => exact decayTick_invariant now s h
      have hrest := ih (comboStep e s) hstep.1
      exact ⟨hrest.1, Nat.le_trans hstep.2 hrest.2⟩
  · intro s
    exact ⟨rfl, rfl⟩

/-- Witness for C7: a concrete event sequence from the fresh state. -/
theorem claim_C7_maxCombo_monotone_witness :
    (freshState 0 "day").stats.combo ≤ (freshState 0 "day").stats.maxCombo
    ∧ (runCombo [ComboEvent.increment 100, ComboEvent.breakEv, ComboEvent.increment 200]
          (freshState 0 "day")).stats.combo
        ≤ (runCombo [ComboEvent.increment 100, ComboEvent.breakEv, ComboEvent.increment 200]
            (freshState 0 "day")).stats.maxCombo :=
  ⟨by decide,
   (claim_C7_maxCombo_monotone.1
     [ComboEvent.increment 100, ComboEvent.breakEv, ComboEvent.increment 200]
     (freshState 0 "day") (by decide)).1⟩

end CodeQuest

namespace CodeQuest

/-- Run a sequence of `incrementCombo` calls at the given timestamps. -/
def runIncrements (times : List Nat) (s : GameState) : GameState :=
  times.foldl (fun st t => incrementCombo t st) s

/-- 50 calls with zero elapsed time between them (the burst scenario). -/
def burstTimes : List Nat := List.replicate 50 100000

/-- 50 calls spaced 250 ms apart — beyond the 50 ms default cooldown and
beyond the raised 200 ms bulk cooldown, so every call is accepted. -/
def spacedTimes : List Nat := (List.range 50).map (fun i => 100000 + 250 * i)

/-- A call issued at the very timestamp of the previously accepted
increment falls inside the (positive) cooldown window and is rejected
with no state change at all. -/
theorem incrementCombo_rejected (now : Nat) (s : GameState)
    (h1 : s.lastComboIncrement = now) (h2 : 0 < s.comboIncrementCooldown) :
    incrementCombo now s = s := by
  unfold incrementCombo
  split_ifs with he hcool
  · rfl
  · exact absurd (by rw [h1, Nat.sub_self]; exact h2) hcool
  · rfl

/-- Folding any number of rejected same-timestamp calls is the identity. -/
theorem runIncrements_replicate_id (n now : Nat) :
    ∀ s : GameState, s.lastComboIncrement = now → 0 < s.comboIncrementCooldown →
      runIncrements (List.replicate n now) s = s := by
  induction n with
  | zero => intro s _ _; rfl
  | succ n ih =>
    intro s h1 h2
    rw [List.replicate_succ]
    show runIncrements (List.replicate n now) (incrementCombo now s) = s
    rw [incrementCombo_rejected now s h1 h2]
    exact ih s h1 h2

set_option maxRecDepth 10000 in
/-- From the fresh engine, a burst of `n + 1` calls all at the same
instant leaves `combo = 1`: the first call is accepted, every later one
is rejected. -/
theorem runIncrements_burst_combo (n : Nat) :
    (runIncrements (List.replicate (n + 1) 100000) (freshState 0 "day")).stats.combo = 1 := by
  have h1 : (incrementCombo 100000 (freshState 0 "day")).lastComboIncrement = 100000 := by
    decide
  have h2 : 0 < (incrementCombo 100000 (freshState 0 "day")).comboIncrementCooldown := by
    decide
  rw [List.replicate_succ]
  show (runIncrements (List.replicate n 100000)
      (incrementCombo 100000 (freshState 0 "day"))).stats.combo = 1
  rw [runIncrements_replicate_id n 100000 _ h1 h2]
  decide

set_option maxRecDepth 100000 in
/-- C6: a same-instant call is always rejected with no state change
(first conjunct); from the fresh engine, any burst of same-instant calls
— in particular 50 of them — yields `combo = 1`, while 50 calls spaced
beyond the cooldown in force (250 ms apart) are all accepted and yield
`combo = 50`. -/
theorem claim_C6_rate_limit_burst :
    (∀ (now : Nat) (s : GameState), s.lastComboIncrement = now →
        0 < s.comboIncrementCooldown → incrementCombo now s = s)
    ∧ (∀ n : Nat,
        (runIncrements (List.replicate (n + 1) 100000) (freshState 0 "day")).stats.combo = 1)
    ∧ (runIncrements burstTimes (freshState 0 "day")).stats.combo = 1
    ∧ (runIncrements spacedTimes (freshState 0 "day")).stats.combo = 50 :=
  ⟨incrementCombo_rejected, runIncrements_burst_combo,
   runIncrements_burst_combo 49, by decide⟩

/-- Witness for C6: the rejection conjunct applied at the fresh state
(whose `lastComboIncrement` is 0) with both hypotheses discharged. -/
theorem claim_C6_rate_limit_burst_witness :
    (freshState 0 "day").lastComboIncrement = 0
    ∧ 0 < (freshState 0 "day").comboIncrementCooldown
    ∧ incrementCombo 0 (freshState 0 "day") = freshState 0 "day" :=
  ⟨rfl, by decide, claim_C6_rate_limit_burst.1 0 (freshState 0 "day") rfl (by decide)⟩

end CodeQuest

namespace CodeQuest

theorem evictFront_eq_drop :
    ∀ (fuel : Nat) (l : List Achievement), l.length ≤ fuel →
      evictFront fuel l = l.drop (l.length - MAX_TEMPORARY_ACHIEVEMENTS) := by
  intro fuel
  induction fuel with
  | zero =>
    intro l hlen
    have hl : l = [] := List.length_eq_zero.mp (Nat.le_zero.mp hlen)
    subst hl
    rfl
  | succ fuel ih =>
    intro l hlen
    simp only [evictFront]
    split_ifs with h
    · rw [ih l.tail (by rw [List.length_tail]; omega)]
      rw [← List.drop_one, List.drop_drop]
      congr 1
      rw [List.length_drop]
      omega
    · have h0 : l.length - MAX_TEMPORARY_ACHIEVEMENTS = 0 := by
        omega
      rw [h0, List.drop_zero]

/-- The eviction loop keeps exactly the newest entries: it drops the
overflow from the front. -/
theorem evictTemps_eq_drop (l : List Achievement) :
    evictTemps l = l.drop (l.length - MAX_TEMPORARY_ACHIEVEMENTS) :=
  evictFront_eq_drop l.length l (Nat.le_refl _)

theorem addAchievement_temps_of_temporary (now : Nat) (a : Achievement) (s : GameState)
    (h : a.type = AchType.temporary) :
    (addAchievement now a s).achievements.temporaryAchievements
      = evictTemps (s.achievements.temporaryAchievements ++ [{ a with timestamp := now }]) := by
  simp [addAchievement, saveAchievements, h]

/-- An achievement paired with the clock value at which it is added, as
stored (`timestamp = Date.now()`). -/
def stamped (p : Nat × Achievement) : Achievement :=
  { p.2 with timestamp := p.1 }

/-- A sequence of `addAchievement` calls, each with its clock value. -/
def addTemporaries (ps : List (Nat × Achievement)) (s : GameState) : GameState :=
  ps.foldl (fun st p => addAchievement p.1 p.2 st) s

/-- Suffix characterisation of the temporary collection: after any
sequence of temporary adds, the stored list is exactly the newest
`≤ cap` entries of old-contents-then-added, in order. -/
theorem addTemporaries_temps :
    ∀ (ps : List (Nat × Achievement)) (s : GameState),
      (∀ p ∈ ps, (p : Nat × Achievement).2.type = AchType.temporary) →
      s.achievements.temporaryAchievements.length ≤ MAX_TEMPORARY_ACHIEVEMENTS →
      (addTemporaries ps s).achievements.temporaryAchievements
        = (s.achievements.temporaryAchievements ++ ps.map stamped).drop
            (s.achievements.temporaryAchievements.length + ps.length
              - MAX_TEMPORARY_ACHIEVEMENTS) := by
  intro ps
  induction ps with
  | nil =>
    intro s _ hlen
    have h0 : s.achievements.temporaryAchievements.length + ([] : List (Nat × Achievement)).length
        - MAX_TEMPORARY_ACHIEVEMENTS = 0 := by
      simp only [List.length_nil]
      omega
    show s.achievements.temporaryAchievements = _
    rw [h0, List.drop_zero, List.map_nil, List.append_nil]
  | cons p ps ih =>
    intro s hty hlen
    have hstep : (addAchievement p.1 p.2 s).achievements.temporaryAchievements
        = (s.achievements.temporaryAchievements ++ [stamped p]).drop
            (s.achievements.temporaryAchievements.length + 1 - MAX_TEMPORARY_ACHIEVEMENTS) := by
      rw [addAchievement_temps_of_temporary p.1 p.2 s (hty p (List.mem_cons_self p ps)),
        evictTemps_eq_drop]
      congr 1
      simp [stamped]
    have hlen1 : (addAchievement p.1 p.2 s).achievements.temporaryAchievements.length
        ≤ MAX_TEMPORARY_ACHIEVEMENTS := by
      rw [hstep, List.length_drop]
      simp only [List.length_append, List.length_singleton]
      omega
    have hmain := ih (addAchievement p.1 p.2 s)
      (fun q hq => hty q (List.mem_cons_of_mem p hq)) hlen1
    have hle : s.achievements.temporaryAchievements.length + 1 - MAX_TEMPORARY_ACHIEVEMENTS
        ≤ (s.achievements.temporaryAchievements ++ [stamped p]).length := by
      simp only [List.length_append, List.length_singleton]
      omega
    show (addTemporaries ps (addAchievement p.1 p.2 s)).achievements.temporaryAchievements = _
    rw [hmain, hstep]
    rw [← List.drop_append_of_le_length hle, List.drop_drop]
    simp only [List.map_cons]
    rw [List.append_assoc, List.singleton_append]
    congr 1
    rw [List.length_drop]
    simp only [List.length_append, List.length_singleton, List.length_cons, List.length_nil]
    omega

end CodeQuest

namespace CodeQuest

/-- A temporary achievement used in the cap-eviction scenario. -/
def mkTempAch (i : Nat) : Achievement :=
  { id := "t" ++ toString i
    title := "t"
    descr := "t"
    icon := "t"
    type := AchType.temporary
    category := AchCategory.milestone
    timestamp := 0 }

/-- `cap + 5 = 15` temporary additions in quick succession. -/
def fifteenAdds : List (Nat × Achievement) :=
  (List.range 15).map (fun i => (1000 + i, mkTempAch i))

set_option maxRecDepth 4000 in
/-- C8: over every sequence of temporary `addAchievement` calls the
stored temporary collection never exceeds the cap of 10, and its content
is exactly the newest entries in order (the front — the oldest — is
evicted); concretely, adding cap + 5 = 15 temporaries to a fresh engine
leaves exactly the 10 most recently added (the oldest 5 evicted). -/
theorem claim_C8_temporary_cap_eviction :
    (∀ (ps : List (Nat × Achievement)) (s : GameState),
        (∀ p ∈ ps, (p : Nat × Achievement).2.type = AchType.temporary) →
        s.achievements.temporaryAchievements.length ≤ MAX_TEMPORARY_ACHIEVEMENTS →
        (addTemporaries ps s).achievements.temporaryAchievements.length
            ≤ MAX_TEMPORARY_ACHIEVEMENTS
        ∧ (addTemporaries ps s).achievements.temporaryAchievements
            = (s.achievements.temporaryAchievements ++ ps.map stamped).drop
                (s.achievements.temporaryAchievements.length + ps.length
                  - MAX_TEMPORARY_ACHIEVEMENTS))
    ∧ (addTemporaries fifteenAdds (freshState 0 "day")).achievements.temporaryAchievements
        = (fifteenAdds.map stamped).drop 5
    ∧ (addTemporaries fifteenAdds
        (freshState 0 "day")).achievements.temporaryAchievements.length = 10 := by
  refine ⟨?_, by decide, by decide⟩
  intro ps s hty hlen
  have h := addTemporaries_temps ps s hty hlen
  refine ⟨?_, h⟩
  rw [h, List.length_drop]
  simp only [List.length_append, List.length_map]
  omega

set_option maxRecDepth 4000 in
/-- Witness for C8: the cap bound applied to the 15 concrete additions
on the fresh engine, both hypotheses discharged. -/
theorem claim_C8_temporary_cap_eviction_witness :
    (∀ p ∈ fifteenAdds, (p : Nat × Achievement).2.type = AchType.temporary)
    ∧ (freshState 0 "day").achievements.temporaryAchievements.length
        ≤ MAX_TEMPORARY_ACHIEVEMENTS
    ∧ (addTemporaries fifteenAdds (freshState 0 "day")).achievements.temporaryAchievements.length
        ≤ MAX_TEMPORARY_ACHIEVEMENTS :=
  ⟨by decide, by decide,
   (claim_C8_temporary_cap_eviction.1 fifteenAdds (freshState 0 "day")
     (by decide) (by decide)).1⟩

end CodeQuest

namespace CodeQuest

theorem levelUp_bossBattlesWon (now : Nat) (s : GameState) :
    (levelUp now s).stats.bossBattlesWon = s.stats.bossBattlesWon := by
  unfold levelUp
  simp [addLevelUpAchievement_stats]

theorem settleLevels_bossBattlesWon (fuel : Nat) :
    ∀ now s, (settleLevels fuel now s).stats.bossBattlesWon = s.stats.bossBattlesWon := by
  induction fuel with
  | zero => intro now s; rfl
  | succ fuel ih =>
    intro now s
    simp only [settleLevels]
    by_cases hc : s.stats.xpToNextLevel ≤ s.stats.xp
    · rw [if_pos hc, ih, levelUp_bossBattlesWon]
    · rw [if_neg hc]

theorem addXP_bossBattlesWon (now amount : Nat) (reason : String) (s : GameState) :
    (addXP now amount reason s).stats.bossBattlesWon = s.stats.bossBattlesWon := by
  unfold addXP
  split_ifs with he h10 <;>
    simp [saveStats_stats, settleLevels_bossBattlesWon, addXpGainAchievement_stats]

theorem saveStats_achievements (s : GameState) :
    (saveStats s).achievements = s.achievements := rfl

/-- The permanent boss-victory achievement as stored. -/
def bossVictoryAch (now : Nat) (bossName : String) : Achievement :=
  { id := "boss_victory_" ++ toString now
    title := bossName ++ " Defeated!"
    descr := "Successfully completed the " ++ bossName ++ " challenge"
    icon := "🏆"
    type := AchType.permanent
    category := AchCategory.boss
    timestamp := now }

/-- When no stored permanent achievement shares the freshly minted id,
the boss-victory achievement is appended. -/
theorem addBossVictoryAchievement_perms (now : Nat) (bossName : String) (s : GameState)
    (hfresh : ∀ a ∈ s.achievements.permanentAchievements,
        a.id ≠ "boss_victory_" ++ toString now) :
    (addBossVictoryAchievement now bossName s).achievements.permanentAchievements
      = s.achievements.permanentAchievements ++ [bossVictoryAch now bossName] := by
  unfold addBossVictoryAchievement addAchievement saveAchievements
  have hany : (s.achievements.permanentAchievements.any
      (fun p => p.id = "boss_victory_" ++ toString now)) = false := by
    apply List.any_eq_false.mpr
    intro p hp
    simp [hfresh p hp]
  simp [hany, bossVictoryAch]

/-- The non-negative time bonus shrinks (weakly) as the battle runs
longer. -/
theorem bossTimeBonus_antitone (startTime n1 n2 : Nat) (h : n1 ≤ n2) :
    bossTimeBonus n2 startTime ≤ bossTimeBonus n1 startTime := by
  unfold bossTimeBonus
  have h1 : n1 - startTime ≤ n2 - startTime := Nat.sub_le_sub_right h startTime
  have h2 : (n1 - startTime) / 60000 ≤ (n2 - startTime) / 60000 :=
    Nat.div_le_div_right h1
  have h3 : (n1 - startTime) / 60000 * 10 ≤ (n2 - startTime) / 60000 * 10 :=
    Nat.mul_le_mul_right 10 h2
  omega

end CodeQuest

namespace CodeQuest

/-- C4: with an enabled engine and an active (not completed) battle:
`completeBossBattle` is rejected with no state change at all while any
subtask is incomplete, and succeeds exactly when every subtask is
completed (`canCompleteBossBattle` is precisely that check).  On
success `bossBattlesWon` rises by exactly 1, the battle is cleared, the
awarded XP equals the base 100 plus the time bonus
`max(0, 1000 - floor(elapsed / 60000) * 10)` — non-negative by
construction and weakly decreasing in the elapsed time — and the
permanent boss-victory achievement is recorded (the award and
achievement conjuncts are stated on calls staying below the level
threshold, where the xp field records the award directly and no
milestone achievement can interfere with the freshly minted id). -/
theorem claim_C4_boss_completion_gating (now : Nat) (s : GameState) (b : BossBattle)
    (he : s.enabled = true)
    (hb : s.stats.currentBossBattle = some b)
    (hnc : b.completed = false) :
    (canCompleteBossBattle s = b.subtasks.all (fun st => st.completed))
    ∧ (b.subtasks.all (fun st => st.completed) = false → completeBossBattle now s = s)
    ∧ (∀ startTime n1 n2, n1 ≤ n2 → bossTimeBonus n2 startTime ≤ bossTimeBonus n1 startTime)
    ∧ (b.subtasks.all (fun st => st.completed) = true →
        (completeBossBattle now s).stats.bossBattlesWon = s.stats.bossBattlesWon + 1
        ∧ (completeBossBattle now s).stats.currentBossBattle = none
        ∧ (s.stats.xp + (100 + bossTimeBonus now b.startTime) < s.stats.xpToNextLevel →
            (completeBossBattle now s).stats.xp
                = s.stats.xp + (100 + bossTimeBonus now b.startTime)
            ∧ ((∀ a ∈ s.achievements.permanentAchievements,
                  a.id ≠ "boss_victory_" ++ toString now) →
                bossVictoryAch now b.name
                  ∈ (completeBossBattle now s).achievements.permanentAchievements))) := by
  have hcan : canCompleteBossBattle s = b.subtasks.all (fun st => st.completed) := by
    simp [canCompleteBossBattle, hb, hnc]
  refine ⟨hcan, ?_, fun st n1 n2 h => bossTimeBonus_antitone st n1 n2 h, ?_⟩
  · intro hfail
    unfold completeBossBattle
    rw [hb]
    simp [hnc, hfail]
  · intro hall
    unfold completeBossBattle
    rw [hb]
    simp only [hnc, Bool.false_eq_true, if_false, hall, if_true]
    refine ⟨?_, rfl, ?_⟩
    · rw [saveStats_stats]
      show (addBossVictoryAchievement now b.name _).stats.bossBattlesWon = _
      rw [addBossVictoryAchievement_stats, addXP_bossBattlesWon]
    · intro hsmall
      have he1 : ({ s with stats :=
          { s.stats with currentBossBattle := some { b with completed := true }
                         bossBattlesWon := s.stats.bossBattlesWon + 1 } } :
            GameState).enabled = true := he
      have hxp := addXP_no_levelup now (100 + bossTimeBonus now b.startTime)
        ("(Boss Battle: " ++ b.name ++ ")")
        ({ s with stats :=
          { s.stats with currentBossBattle := some { b with completed := true }
                         bossBattlesWon := s.stats.bossBattlesWon + 1 } })
        he1 hsmall
      constructor
      · rw [saveStats_stats]
        show (addBossVictoryAchievement now b.name _).stats.xp = _
        rw [addBossVictoryAchievement_stats]
        rw [hxp.1]
      · intro hfresh
        rw [saveStats_achievements]
        show bossVictoryAch now b.name
            ∈ (addBossVictoryAchievement now b.name _).achievements.permanentAchievements
        rw [addBossVictoryAchievement_perms]
        · exact List.mem_append_right _ (List.mem_singleton.mpr rfl)
        · intro a ha
          apply hfresh
          rw [← hxp.2]
          exact ha

end CodeQuest

namespace CodeQuest

/-- Base state with a high threshold so the boss award stays below it. -/
def bossBase : GameState :=
  { freshState 0 "day" with stats := { initialStats "day" with xpToNextLevel := 5000 } }

/-- A battle with two subtasks, both toggled complete. -/
def bossReady : GameState :=
  toggleSubtask "subtask_1"
    (toggleSubtask "subtask_0" (startBossBattle 7000 3 "Dragon" ["a", "b"] bossBase))

/-- The active battle stored in `bossReady`. -/
def bossReadyBattle : BossBattle :=
  { name := "Dragon"
    startTime := 7000
    targetLines := 23
    currentLines := 0
    completed := false
    subtasks := [{ id := "subtask_0", descr := "a", completed := true },
                 { id := "subtask_1", descr := "b", completed := true }] }

/-- Witness for C4: completing the concrete two-subtask battle with all
subtasks done, every hypothesis discharged. -/
theorem claim_C4_boss_completion_gating_witness :
    (bossReady.enabled = true
      ∧ bossReady.stats.currentBossBattle = some bossReadyBattle
      ∧ bossReadyBattle.completed = false
      ∧ bossReadyBattle.subtasks.all (fun st => st.completed) = true)
    ∧ (completeBossBattle 8000 bossReady).stats.bossBattlesWon
        = bossReady.stats.bossBattlesWon + 1
    ∧ (completeBossBattle 8000 bossReady).stats.currentBossBattle = none :=
  ⟨⟨rfl, by decide, rfl, by decide⟩,
   ((claim_C4_boss_completion_gating 8000 bossReady bossReadyBattle rfl (by decide)
      rfl).2.2.2 (by decide)).1,
   ((claim_C4_boss_completion_gating 8000 bossReady bossReadyBattle rfl (by decide)
      rfl).2.2.2 (by decide)).2.1⟩

end CodeQuest

namespace CodeQuest

/-!
Reference-semantics model for the accessor claim.  In the source,
objects live on the JS heap and `PlayerStats.currentBossBattle` holds a
reference; `getStats` copies the scalar fields into the returned object
but assigns the battle field by reference
(`this._cachedStats.currentBossBattle = this.stats.currentBossBattle`).
Here the heap of `BossBattle` objects is a list indexed by address, and
battle-valued fields hold an optional address.
-/

/-- `PlayerStats` with the battle field as a heap reference. -/
structure PlayerStatsRef where
  level : Nat
  xp : Nat
  xpToNextLevel : Nat
  dailyStreak : Nat
  lastActiveDate : String
  totalLinesWritten : Nat
  combo : Nat
  maxCombo : Nat
  bossBattlesWon : Nat
  currentBossBattle : Option Nat := none
deriving DecidableEq

/-- Engine state under the reference model: the battle heap plus stats. -/
structure GameStateRef where
  heap : List BossBattle
  stats : PlayerStatsRef
deriving DecidableEq

/-- `getStats()` under the reference model: the field-by-field copy of
the source (part_004 lines 831–840) — scalars are copied by value, the
`currentBossBattle` field copies the reference. -/
def getStatsRef (s : GameStateRef) : PlayerStatsRef :=
  { level := s.stats.level
    xp := s.stats.xp
    xpToNextLevel := s.stats.xpToNextLevel
    dailyStreak := s.stats.dailyStreak
    lastActiveDate := s.stats.lastActiveDate
    totalLinesWritten := s.stats.totalLinesWritten
    combo := s.stats.combo
    maxCombo := s.stats.maxCombo
    bossBattlesWon := s.stats.bossBattlesWon
    currentBossBattle := s.stats.currentBossBattle }

/-- `canCompleteBossBattle()` under the reference model: dereference the
engine's own battle reference. -/
def canCompleteBossBattleRef (s : GameStateRef) : Bool :=
  match s.stats.currentBossBattle with
  | none => false
  | some r =>
    match s.heap.get? r with
    | none => false
    | some b => if b.completed then false else b.subtasks.all (fun st => st.completed)

/-- A presentation-layer mutation performed purely through a snapshot it
received: it follows the snapshot's battle reference and flips the named
subtask on that battle object — a heap write. -/
def toggleSnapSubtask (snap : PlayerStatsRef) (sid : String) (s : GameStateRef) :
    GameStateRef :=
  match snap.currentBossBattle with
  | none => s
  | some r =>
    match s.heap.get? r with
    | none => s
    | some b => { s with heap := s.heap.set r { b with subtasks := toggleFirst sid b.subtasks } }

/-- A concrete engine whose heap holds one active battle with one
incomplete subtask. -/
def engineRef : GameStateRef :=
  { heap := [{ name := "B"
               startTime := 0
               targetLines := 20
               currentLines := 0
               completed := false
               subtasks := [{ id := "subtask_0", descr := "t", completed := false }] }]
    stats := { level := 1, xp := 0, xpToNextLevel := 100, dailyStreak := 0,
               lastActiveDate := "day", totalLinesWritten := 0, combo := 0,
               maxCombo := 0, bossBattlesWon := 0, currentBossBattle := some 0 } }

/-- C9 counterexample: mutating the battle reached through the snapshot
returned by `getStats` flips the engine's own `canCompleteBossBattle`
from `false` to `true` — the snapshot does not insulate engine state. -/
theorem claim_C9_counterexample :
    canCompleteBossBattleRef engineRef = false
    ∧ canCompleteBossBattleRef
        (toggleSnapSubtask (getStatsRef engineRef) "subtask_0" engineRef) = true := by
  exact ⟨rfl, rfl⟩

/-- C9 (amended): `getStats` copies the scalar fields, but the returned
snapshot's `currentBossBattle` is the same reference as the engine's, so
a presentation-layer write through the snapshot lands on the engine's
own battle object: it equals the corresponding direct mutation of the
engine heap and is visible to subsequent engine operations. -/
theorem claim_C9_getStats_aliasing (s : GameStateRef) :
    (getStatsRef s).currentBossBattle = s.stats.currentBossBattle
    ∧ (∀ (sid : String) (r : Nat) (b : BossBattle),
        s.stats.currentBossBattle = some r →
        s.heap.get? r = some b →
        toggleSnapSubtask (getStatsRef s) sid s
          = { s with heap := s.heap.set r { b with subtasks := toggleFirst sid b.subtasks } }) := by
  refine ⟨rfl, ?_⟩
  intro sid r b h1 h2
  rw [List.get?_eq_getElem?] at h2
  simp [toggleSnapSubtask, getStatsRef, h1, h2]

/-- Witness for C9 (amended), applied at the concrete engine. -/
theorem claim_C9_getStats_aliasing_witness :
    engineRef.stats.currentBossBattle = some 0
    ∧ (engineRef.heap.get? 0).isSome = true
    ∧ (getStatsRef engineRef).currentBossBattle = engineRef.stats.currentBossBattle :=
  ⟨rfl, by decide, (claim_C9_getStats_aliasing engineRef).1⟩

end CodeQuest
